import Mathlib

/-!
Verification of the aggregation pipeline of the customer-churn dashboard
(`src/app.py`).  The pipeline consists of the age bucketing done with
`pd.cut` (lines 173-181), the four-way `isin` filter building `filtered_df`
(lines 210-215), the per-demographic count histograms, and `churn_rate_df`
(lines 346-360), which cross-tabulates a category column against
`attrition_flag`, normalizes each row to percentages, melts to long form and
rounds to one decimal.

Modelling notes, taken from the source and the documented semantics of the
dataframe library it calls:
* `pd.cut(..., bins=[20,40,50,60,79], right=False)` produces the left-closed,
  right-open intervals [20,40), [40,50), [50,60), [60,79); values outside
  every bin (age 79 included) become NaN, modelled as `none`.
* `Series.isin` is false on a NaN entry when the allowed list holds only
  concrete values, so rows with NaN `age_group` never pass the filter mask.
* `pd.crosstab` drops input rows whose grouping key is NaN, and — per its
  documentation — keeps every declared category of a Categorical grouping
  column as a row even when no data carries it.  `normalize='index'` divides
  each row by its row sum, so an all-zero row becomes NaN (0/0), modelled as
  `none`.  The melted output stacks one block of rows per outcome column.
* `.round(1)` scales by ten, rounds to the nearest integer with ties to
  even, and scales back; modelled exactly over `ℚ`.
* Row and column orders (pandas sorts group keys; categories come in
  declaration order) are irrelevant to every property proved here; rows of
  string-valued dimensions are modelled as the distinct present values.
-/

namespace ChurnApp

/-- The binary outcome label of the `attrition_flag` column:
`Existing Customer` or `Attrited Customer`. -/
inductive AttritionFlag where
  | existing
  | attrited
deriving DecidableEq, Repr

/-- The four age buckets created by `pd.cut`, with the labels
`20-39`, `40-49`, `50-59`, `60-79` (src/app.py line 174). -/
inductive AgeGroup where
  | g20_39
  | g40_49
  | g50_59
  | g60_79
deriving DecidableEq, Repr

/-- Age bucketing from `pd.cut(df['customer_age'], bins=[20,40,50,60,79],
labels=labels, right=False)` (src/app.py lines 173-181).  With `right=False`
every bin is left-closed and right-open, the last one included, so the bins
are [20,40), [40,50), [50,60), [60,79); any age outside them is NaN. -/
def assign_age_group (a : Int) : Option AgeGroup :=
  if 20 ≤ a ∧ a < 40 then some AgeGroup.g20_39
  else if 40 ≤ a ∧ a < 50 then some AgeGroup.g40_49
  else if 50 ≤ a ∧ a < 60 then some AgeGroup.g50_59
  else if 60 ≤ a ∧ a < 79 then some AgeGroup.g60_79
  else none

/-- One customer row, restricted to the attributes the aggregation pipeline
reads.  The numeric columns not consumed by the pipeline are omitted. -/
structure Record where
  customer_age : Int
  attrition_flag : AttritionFlag
  education_level : String
  gender : String
  income_category : String
deriving DecidableEq, Repr

/-- The derived `age_group` column attached to each row. -/
def Record.age_group (r : Record) : Option AgeGroup :=
  assign_age_group r.customer_age

/-- The sidebar selections: one list of allowed values per categorical
dimension (src/app.py lines 186-208).  The age options are drawn from
`df['age_group'].dropna().unique()`, so the age selection holds concrete
buckets only, never NaN. -/
structure FilterSet where
  age : List AgeGroup
  edu : List String
  gender : List String
  income : List String
deriving DecidableEq, Repr

/-- `Series.isin` on the nullable `age_group` column: a NaN entry is never a
member of a list of concrete buckets. -/
def ageIsin (x : Option AgeGroup) (sel : List AgeGroup) : Bool :=
  match x with
  | some g => sel.contains g
  | none => false

/-- The boolean mask of src/app.py lines 210-215, in the source's order:
gender, income category, age group, education level. -/
def passes (F : FilterSet) (r : Record) : Bool :=
  F.gender.contains r.gender &&
  F.income.contains r.income_category &&
  ageIsin r.age_group F.age &&
  F.edu.contains r.education_level

/-- `filtered_df` (src/app.py lines 210-215): the rows of the input frame
that satisfy the conjunction of the four `isin` masks, in input order. -/
def apply_filters (records : List Record) (F : FilterSet) : List Record :=
  records.filter (passes F)

/-- The four category dimensions the dashboard aggregates over. -/
inductive Dim where
  | ageGroup
  | education
  | gender
  | income
deriving DecidableEq, Repr

/-- A category value: either an age bucket (the categorical `age_group`
column) or a raw string value of one of the three string columns. -/
inductive CatVal where
  | age (g : AgeGroup)
  | str (s : String)
deriving DecidableEq, Repr

/-- The grouping key a row contributes to dimension `d`; `none` exactly when
the `age_group` cell is NaN. -/
def catValue (d : Dim) (r : Record) : Option CatVal :=
  match d with
  | Dim.ageGroup => (assign_age_group r.customer_age).map CatVal.age
  | Dim.education => some (CatVal.str r.education_level)
  | Dim.gender => some (CatVal.str r.gender)
  | Dim.income => some (CatVal.str r.income_category)

/-- The (grouping key, outcome) pairs entering `pd.crosstab`; rows whose
grouping key is NaN are dropped, as crosstab drops NaN keys. -/
def catPairs (records : List Record) (d : Dim) : List (CatVal × AttritionFlag) :=
  records.filterMap (fun r => (catValue d r).map (fun v => (v, r.attrition_flag)))

/-- The crosstab cell: how many filtered rows carry value `v` and flag `o`. -/
def cellCount (records : List Record) (d : Dim) (v : CatVal) (o : AttritionFlag) : Nat :=
  ((catPairs records d).filter (fun p => p.1 == v && p.2 == o)).length

/-- The crosstab row sum for value `v` (the normalization denominator). -/
def totalCount (records : List Record) (d : Dim) (v : CatVal) : Nat :=
  ((catPairs records d).filter (fun p => p.1 == v)).length

/-- The row index of the crosstab.  The `age_group` column is a pandas
Categorical built by `pd.cut`, and crosstab keeps all of its declared
categories as rows even when unused; a string column contributes the
distinct values present in the data. -/
def rowVals (records : List Record) (d : Dim) : List CatVal :=
  match d with
  | Dim.ageGroup =>
      [CatVal.age AgeGroup.g20_39, CatVal.age AgeGroup.g40_49,
       CatVal.age AgeGroup.g50_59, CatVal.age AgeGroup.g60_79]
  | _ => ((catPairs records d).map Prod.fst).dedup

/-- The outcome columns of the crosstab: the flags observed among the rows
with a non-NaN grouping key, in the label order pandas sorts them
(`Attrited Customer` before `Existing Customer`). -/
def colVals (records : List Record) (d : Dim) : List AttritionFlag :=
  [AttritionFlag.attrited, AttritionFlag.existing].filter
    (fun o => (catPairs records d).any (fun p => p.2 == o))

/-- Round to the nearest integer, ties to even — the rounding primitive of
the dataframe library's `.round`. -/
def rint (q : ℚ) : ℤ :=
  if Int.fract q < 1 / 2 then ⌊q⌋
  else if 1 / 2 < Int.fract q then ⌊q⌋ + 1
  else if ⌊q⌋ % 2 = 0 then ⌊q⌋ else ⌊q⌋ + 1

/-- `.round(1)` (src/app.py line 358): scale by ten, round to the nearest
integer with ties to even, scale back; modelled exactly over `ℚ`. -/
def round1 (q : ℚ) : ℚ :=
  (rint (10 * q) : ℚ) / 10

/-- One melted row of `churn_rate_df`: a category value, an outcome, and the
rounded percentage; the percentage is `none` when the crosstab row
normalized to 0/0 (NaN). -/
structure RateRow where
  cat : CatVal
  flag : AttritionFlag
  percentage : Option ℚ
deriving DecidableEq, Repr

/-- `churn_rate_df` (src/app.py lines 346-360): crosstab of the category
column against `attrition_flag`, normalized per row and scaled to
percentages, melted to long form (one block of rows per outcome column),
each percentage rounded to one decimal.  A crosstab row whose sum is zero —
an unused age bucket — normalizes to 0/0 and yields NaN percentages. -/
def rate_by (records : List Record) (d : Dim) : List RateRow :=
  (colVals records d).flatMap (fun o =>
    (rowVals records d).map (fun v =>
      { cat := v, flag := o,
        percentage :=
          if totalCount records d v = 0 then none
          else some (round1 (100 * (cellCount records d v o : ℚ) /
                              (totalCount records d v : ℚ))) }))

/-- One bar of a demographic count histogram. -/
structure CountRow where
  cat : CatVal
  flag : AttritionFlag
  count : Nat
deriving DecidableEq, Repr

/-- The count aggregation behind the demographic histograms
(src/app.py lines 261-343): the number of filtered rows per
(category value, attrition flag) pair, one bar per pair present in the data
(a histogram draws no bar from zero rows). -/
def count_by (records : List Record) (d : Dim) : List CountRow :=
  ((catPairs records d).dedup).map (fun p =>
    { cat := p.1, flag := p.2, count := cellCount records d p.1 p.2 })

/-- The number of rows of a rate table carrying a given value and flag. -/
def rowCount (rows : List RateRow) (v : CatVal) (o : AttritionFlag) : Nat :=
  (rows.filter (fun row => row.cat == v && row.flag == o)).length

/-- The sum of the numeric (non-NaN) percentages reported for value `v`. -/
def sumPct (rows : List RateRow) (v : CatVal) : ℚ :=
  ((rows.filter (fun row => row.cat == v)).filterMap RateRow.percentage).sum

/-! ### Shared lemmas about the rounding primitive -/

lemma rint_intCast (n : ℤ) : rint (n : ℚ) = n := by
  unfold rint
  rw [Int.fract_intCast, Int.floor_intCast]
  norm_num

/-- Rounding to nearest with ties to even is compatible with reflection
around an even integer: the roundings of `x` and `1000 - x` always add up
to `1000`.  This is the reason a pair of complementary percentages keeps
summing to exactly 100 after rounding. -/
lemma rint_add_compl (x : ℚ) : rint x + rint (1000 - x) = 1000 := by
  have hfr : Int.fract (1000 - x) = Int.fract (-x) := by
    have h : (1000 : ℚ) - x = ((1000 : ℤ) : ℚ) + (-x) := by push_cast; ring
    rw [h, Int.fract_int_add]
  by_cases h0 : Int.fract x = 0
  · obtain ⟨n, hn⟩ : ∃ n : ℤ, x = (n : ℚ) :=
      ⟨⌊x⌋, by rw [← Int.self_sub_fract x, h0, sub_zero]⟩
    subst hn
    have h1000 : (1000 : ℚ) - (n : ℚ) = ((1000 - n : ℤ) : ℚ) := by push_cast; ring
    rw [h1000, rint_intCast, rint_intCast]
    omega
  · have h1 : Int.fract (1000 - x) = 1 - Int.fract x := by
      rw [hfr, Int.fract_neg h0]
    have hfloor : ⌊(1000 : ℚ) - x⌋ = 999 - ⌊x⌋ := by
      have e1 : ((⌊(1000 : ℚ) - x⌋ : ℤ) : ℚ) = (1000 - x) - Int.fract (1000 - x) :=
        (Int.self_sub_fract _).symm
      have e2 : ((⌊x⌋ : ℤ) : ℚ) = x - Int.fract x := (Int.self_sub_fract x).symm
      have e3 : ((⌊(1000 : ℚ) - x⌋ : ℤ) : ℚ) = ((999 - ⌊x⌋ : ℤ) : ℚ) := by
        rw [e1, h1]; push_cast; rw [e2]; ring
      exact_mod_cast e3
    have hb2 : Int.fract x < 1 := Int.fract_lt_one x
    unfold rint
    rcases lt_trichotomy (Int.fract x) (1 / 2) with hlt | heq | hgt
    · rw [if_pos hlt]
      have ha : ¬ Int.fract (1000 - x) < 1 / 2 := by rw [h1]; linarith
      have hb : (1 : ℚ) / 2 < Int.fract (1000 - x) := by rw [h1]; linarith
      rw [if_neg ha, if_pos hb, hfloor]
      omega
    · have hx1 : ¬ Int.fract x < 1 / 2 := by rw [heq]; exact lt_irrefl _
      have hx2 : ¬ (1 : ℚ) / 2 < Int.fract x := by rw [heq]; exact lt_irrefl _
      have hy1 : ¬ Int.fract (1000 - x) < 1 / 2 := by rw [h1, heq]; norm_num
      have hy2 : ¬ (1 : ℚ) / 2 < Int.fract (1000 - x) := by rw [h1, heq]; norm_num
      rw [if_neg hx1, if_neg hx2, if_neg hy1, if_neg hy2, hfloor]
      by_cases hp : ⌊x⌋ % 2 = 0
      · rw [if_pos hp, if_neg (by omega : ¬ (999 - ⌊x⌋) % 2 = 0)]
        omega
      · rw [if_neg hp, if_pos (by omega : (999 - ⌊x⌋) % 2 = 0)]
        omega
    · have ha : ¬ Int.fract x < 1 / 2 := by linarith
      have hb : Int.fract (1000 - x) < 1 / 2 := by rw [h1]; linarith
      rw [if_neg ha, if_pos hgt, if_pos hb, hfloor]
      omega

/-- Two complementary percentages, rounded to one decimal with ties to
even, sum to exactly 100. -/
lemma round1_pair (c₁ c₂ : ℕ) (h : c₁ + c₂ ≠ 0) :
    round1 (100 * (c₁ : ℚ) / ((c₁ : ℚ) + (c₂ : ℚ))) +
      round1 (100 * (c₂ : ℚ) / ((c₁ : ℚ) + (c₂ : ℚ))) = 100 := by
  have ht : ((c₁ : ℚ) + (c₂ : ℚ)) ≠ 0 := by
    have h' : ((c₁ + c₂ : ℕ) : ℚ) ≠ 0 := Nat.cast_ne_zero.mpr h
    push_cast at h'; exact h'
  unfold round1
  have hx : 10 * (100 * (c₂ : ℚ) / ((c₁ : ℚ) + (c₂ : ℚ))) =
      1000 - 10 * (100 * (c₁ : ℚ) / ((c₁ : ℚ) + (c₂ : ℚ))) := by
    field_simp
    ring
  rw [hx]
  have hs := rint_add_compl (10 * (100 * (c₁ : ℚ) / ((c₁ : ℚ) + (c₂ : ℚ))))
  have hsq : ((rint (10 * (100 * (c₁ : ℚ) / ((c₁ : ℚ) + (c₂ : ℚ)))) : ℤ) : ℚ) +
      ((rint (1000 - 10 * (100 * (c₁ : ℚ) / ((c₁ : ℚ) + (c₂ : ℚ)))) : ℤ) : ℚ) = 1000 := by
    exact_mod_cast congrArg (fun n : ℤ => (n : ℚ)) hs
  linarith

lemma round1_hundred : round1 (100 : ℚ) = 100 := by
  have h : (10 : ℚ) * 100 = ((1000 : ℤ) : ℚ) := by norm_num
  unfold round1
  rw [h, rint_intCast]
  norm_num

/-! ### Shared lemmas about the filter mask -/

lemma passes_eq_false_of_age_none (F : FilterSet) {r : Record}
    (h : assign_age_group r.customer_age = none) : passes F r = false := by
  unfold passes ageIsin Record.age_group
  rw [h]
  simp

lemma contains_true_iff {α : Type} [BEq α] [LawfulBEq α] (l : List α) (a : α) :
    l.contains a = true ↔ a ∈ l :=
  List.elem_iff

lemma passes_iff (F : FilterSet) (r : Record) :
    passes F r = true ↔
      ((∃ g, assign_age_group r.customer_age = some g ∧ g ∈ F.age) ∧
        r.education_level ∈ F.edu ∧ r.gender ∈ F.gender ∧
        r.income_category ∈ F.income) := by
  unfold passes ageIsin Record.age_group
  cases h : assign_age_group r.customer_age with
  | none => simp [h]
  | some g =>
      simp only [Bool.and_eq_true, contains_true_iff, h]
      constructor
      · rintro ⟨⟨⟨hg, hi⟩, ha⟩, he⟩
        exact ⟨⟨g, rfl, ha⟩, he, hg, hi⟩
      · rintro ⟨⟨g', hg', ha⟩, he, hg, hi⟩
        cases hg'
        exact ⟨⟨⟨hg, hi⟩, ha⟩, he⟩

/-! ### Shared lemmas about the crosstab counts -/

lemma length_filter_fst_split (l : List (CatVal × AttritionFlag)) (v : CatVal) :
    (l.filter (fun p => p.1 == v)).length =
      (l.filter (fun p => p.1 == v && p.2 == AttritionFlag.attrited)).length +
      (l.filter (fun p => p.1 == v && p.2 == AttritionFlag.existing)).length := by
  induction l with
  | nil => simp
  | cons p l ih =>
      rcases p with ⟨pv, pf⟩
      by_cases hv : pv = v
      · subst hv
        cases pf <;> simp [List.filter_cons, ih] <;> omega
      · have hb : (pv == v) = false := by simp [hv]
        simp [List.filter_cons, hb, ih]

/-- The crosstab row sum is the sum of its two outcome cells. -/
lemma total_eq_cells (R : List Record) (d : Dim) (v : CatVal) :
    totalCount R d v =
      cellCount R d v AttritionFlag.attrited +
      cellCount R d v AttritionFlag.existing := by
  unfold totalCount cellCount
  exact length_filter_fst_split (catPairs R d) v

lemma cellCount_pos_iff (R : List Record) (d : Dim) (v : CatVal) (o : AttritionFlag) :
    0 < cellCount R d v o ↔ (v, o) ∈ catPairs R d := by
  unfold cellCount
  rw [← List.countP_eq_length_filter, List.countP_pos_iff]
  constructor
  · rintro ⟨⟨a, b⟩, hm, hp⟩
    simp only [Bool.and_eq_true, beq_iff_eq] at hp
    obtain ⟨h1, h2⟩ := hp
    subst h1; subst h2
    exact hm
  · intro hm
    exact ⟨(v, o), hm, by simp⟩

lemma totalCount_pos_iff (R : List Record) (d : Dim) (v : CatVal) :
    0 < totalCount R d v ↔ ∃ p ∈ catPairs R d, p.1 = v := by
  unfold totalCount
  rw [← List.countP_eq_length_filter, List.countP_pos_iff]
  simp

lemma mem_colVals (R : List Record) (d : Dim) (o : AttritionFlag) :
    o ∈ colVals R d ↔ ∃ p ∈ catPairs R d, p.2 = o := by
  unfold colVals
  rw [List.mem_filter]
  constructor
  · rintro ⟨-, h⟩
    simpa [List.any_eq_true] using h
  · intro h
    refine ⟨by cases o <;> simp, ?_⟩
    simpa [List.any_eq_true] using h

lemma cellCount_eq_zero_of_not_mem_colVals (R : List Record) (d : Dim)
    (v : CatVal) (o : AttritionFlag) (h : o ∉ colVals R d) :
    cellCount R d v o = 0 := by
  by_contra hne
  have hpos := Nat.pos_of_ne_zero hne
  have hm := (cellCount_pos_iff R d v o).mp hpos
  exact h ((mem_colVals R d o).mpr ⟨(v, o), hm, rfl⟩)

lemma rowVals_nodup (R : List Record) (d : Dim) : (rowVals R d).Nodup := by
  cases d with
  | ageGroup =>
      show ([CatVal.age AgeGroup.g20_39, CatVal.age AgeGroup.g40_49,
             CatVal.age AgeGroup.g50_59, CatVal.age AgeGroup.g60_79]).Nodup
      decide
  | education => exact List.nodup_dedup _
  | gender => exact List.nodup_dedup _
  | income => exact List.nodup_dedup _

lemma colVals_nodup (R : List Record) (d : Dim) : (colVals R d).Nodup :=
  List.Nodup.filter _ (by decide)

lemma colVals_cases (R : List Record) (d : Dim) :
    colVals R d = [] ∨
    colVals R d = [AttritionFlag.attrited] ∨
    colVals R d = [AttritionFlag.existing] ∨
    colVals R d = [AttritionFlag.attrited, AttritionFlag.existing] := by
  unfold colVals
  cases h1 : (catPairs R d).any (fun p => p.2 == AttritionFlag.attrited) <;>
    cases h2 : (catPairs R d).any (fun p => p.2 == AttritionFlag.existing) <;>
      simp [List.filter_cons, h1, h2]

lemma mem_rowVals_of_total_pos (R : List Record) (d : Dim) (v : CatVal)
    (h : 0 < totalCount R d v) : v ∈ rowVals R d := by
  obtain ⟨p, hp, hv⟩ := (totalCount_pos_iff R d v).mp h
  cases d with
  | ageGroup =>
      obtain ⟨r, hr, hmap⟩ := List.mem_filterMap.mp hp
      obtain ⟨cv, hcv, hpair⟩ := Option.map_eq_some'.mp hmap
      obtain ⟨g, hg, hcg⟩ := Option.map_eq_some'.mp hcv
      have hvg : v = CatVal.age g := by
        rw [← hv, ← hpair, ← hcg]
      subst hvg
      cases g <;> simp [rowVals]
  | education =>
      unfold rowVals
      rw [List.mem_dedup]
      exact List.mem_map.mpr ⟨p, hp, hv⟩
  | gender =>
      unfold rowVals
      rw [List.mem_dedup]
      exact List.mem_map.mpr ⟨p, hp, hv⟩
  | income =>
      unfold rowVals
      rw [List.mem_dedup]
      exact List.mem_map.mpr ⟨p, hp, hv⟩

/-! ### Shared lemmas about the shape of the rate table -/

lemma flatMap_singleton_eq_map {α β : Type} (l : List α) (g : α → β) :
    (l.flatMap (fun a => [g a])) = l.map g := by
  induction l with
  | nil => rfl
  | cons a l ih => simp [List.flatMap_cons, ih]

/-- The rows of the rate table carrying value `v`, when `v` is a crosstab
row with a nonzero total: one row per outcome column, holding the rounded
percentage. -/
lemma rate_by_filter_cat (R : List Record) (d : Dim) (v : CatVal)
    (hv : v ∈ rowVals R d) (ht : totalCount R d v ≠ 0) :
    (rate_by R d).filter (fun row => row.cat == v) =
      (colVals R d).map (fun o =>
        ⟨v, o, some (round1 (100 * (cellCount R d v o : ℚ) /
                              (totalCount R d v : ℚ)))⟩) := by
  unfold rate_by
  rw [List.filter_flatMap]
  have hrow : ∀ o : AttritionFlag,
      List.filter (fun row => row.cat == v)
        ((rowVals R d).map (fun v' =>
          ({ cat := v', flag := o,
             percentage :=
               if totalCount R d v' = 0 then none
               else some (round1 (100 * (cellCount R d v' o : ℚ) /
                                   (totalCount R d v' : ℚ))) } : RateRow))) =
        [⟨v, o, some (round1 (100 * (cellCount R d v o : ℚ) /
                               (totalCount R d v : ℚ)))⟩] := by
    intro o
    rw [List.filter_map]
    have hcomp : ((fun row : RateRow => row.cat == v) ∘ (fun v' =>
        ({ cat := v', flag := o,
           percentage :=
             if totalCount R d v' = 0 then none
             else some (round1 (100 * (cellCount R d v' o : ℚ) /
                                 (totalCount R d v' : ℚ))) } : RateRow))) =
        fun v' => v' == v := rfl
    rw [hcomp, List.filter_beq,
        List.count_eq_one_of_mem (rowVals_nodup R d) hv]
    simp [if_neg ht]
  simp only [hrow]
  exact flatMap_singleton_eq_map _ _

/-- For a value with a nonzero total, the sum of its reported percentages is
the sum of the rounded cell percentages over the outcome columns. -/
lemma sumPct_rate_by (R : List Record) (d : Dim) (v : CatVal)
    (hv : v ∈ rowVals R d) (ht : totalCount R d v ≠ 0) :
    sumPct (rate_by R d) v =
      ((colVals R d).map (fun o =>
        round1 (100 * (cellCount R d v o : ℚ) / (totalCount R d v : ℚ)))).sum := by
  unfold sumPct
  rw [rate_by_filter_cat R d v hv ht, List.filterMap_map]
  have hcomp : (RateRow.percentage ∘ (fun o =>
      (⟨v, o, some (round1 (100 * (cellCount R d v o : ℚ) /
                             (totalCount R d v : ℚ)))⟩ : RateRow))) =
      some ∘ (fun o => round1 (100 * (cellCount R d v o : ℚ) /
                                (totalCount R d v : ℚ))) := rfl
  rw [hcomp, List.filterMap_eq_map]

lemma sum_map_ite {α : Type} [DecidableEq α] (l : List α) (o : α) (n : ℕ) :
    (l.map (fun a => if a = o then n else 0)).sum = l.count o * n := by
  induction l with
  | nil => simp
  | cons a l ih =>
      by_cases h : a = o
      · subst h
        simp [List.count_cons, ih, Nat.add_mul, Nat.add_comm]
      · have hb : (a == o) = false := by simp [h]
        simp [List.count_cons, h, hb, ih]

/-- Each (category row, outcome column) pair of the crosstab yields exactly
one melted row, and nothing else does. -/
lemma rowCount_rate_by (R : List Record) (d : Dim) (v : CatVal) (o : AttritionFlag) :
    rowCount (rate_by R d) v o = (colVals R d).count o * (rowVals R d).count v := by
  unfold rowCount rate_by
  rw [← List.countP_eq_length_filter, List.countP_flatMap]
  have hblock : ∀ o' : AttritionFlag,
      List.countP (fun row : RateRow => row.cat == v && row.flag == o)
        ((rowVals R d).map (fun v' =>
          ({ cat := v', flag := o',
             percentage :=
               if totalCount R d v' = 0 then none
               else some (round1 (100 * (cellCount R d v' o' : ℚ) /
                                   (totalCount R d v' : ℚ))) } : RateRow))) =
        if o' = o then (rowVals R d).count v else 0 := by
    intro o'
    rw [List.countP_map]
    by_cases h : o' = o
    · subst h
      rw [if_pos rfl]
      have hcomp : ((fun row : RateRow => row.cat == v && row.flag == o') ∘ (fun v' =>
          ({ cat := v', flag := o',
             percentage :=
               if totalCount R d v' = 0 then none
               else some (round1 (100 * (cellCount R d v' o' : ℚ) /
                                   (totalCount R d v' : ℚ))) } : RateRow))) =
          fun v' => v' == v && o' == o' := rfl
      rw [hcomp]
      simp [List.count]
    · rw [if_neg h]
      rw [List.countP_eq_zero]
      intro v' _
      simp only [Function.comp_apply, Bool.and_eq_true, beq_iff_eq]
      rintro ⟨-, h2⟩
      exact h h2
  calc (List.map ((List.countP fun row : RateRow => row.cat == v && row.flag == o) ∘ fun o' =>
          List.map (fun v' =>
            ({ cat := v', flag := o',
               percentage :=
                 if totalCount R d v' = 0 then none
                 else some (round1 (100 * (cellCount R d v' o' : ℚ) /
                                     (totalCount R d v' : ℚ))) } : RateRow)) (rowVals R d))
          (colVals R d)).sum
      = ((colVals R d).map (fun o' => if o' = o then (rowVals R d).count v else 0)).sum := by
        apply congrArg
        apply List.map_congr_left
        intro o' _
        exact hblock o'
    _ = (colVals R d).count o * (rowVals R d).count v :=
        sum_map_ite (colVals R d) o ((rowVals R d).count v)

/-! ### Claim theorems -/

/-- C1 (code slip, evaluated at the failing input): `pd.cut` with
`right=False` makes the last bin right-open too, so age 79 — although not
below 20 and not above 79, and although the last bucket is labelled
`60-79` — is assigned no bucket; 78 still lands in the last bucket and the
other boundaries behave as the claim states. -/
theorem age79_outside_last_bucket :
    assign_age_group 79 = none ∧
    ¬ ((79 : ℤ) < 20 ∨ (79 : ℤ) > 79) ∧
    assign_age_group 78 = some AgeGroup.g60_79 ∧
    assign_age_group 60 = some AgeGroup.g60_79 ∧
    assign_age_group 20 = some AgeGroup.g20_39 ∧
    assign_age_group 19 = none ∧
    assign_age_group 80 = none := by
  decide

/-- C7: the filter returns an order-preserving subsequence of its input
with no additions and no deduplication, and a record passes exactly when
its age group, education level, gender and income category are members of
the corresponding selections. -/
theorem filter_subsequence_spec (R : List Record) (F : FilterSet) :
    (apply_filters R F).Sublist R ∧
    (∀ r : Record, r ∈ apply_filters R F ↔
      r ∈ R ∧
        ((∃ g, assign_age_group r.customer_age = some g ∧ g ∈ F.age) ∧
          r.education_level ∈ F.edu ∧ r.gender ∈ F.gender ∧
          r.income_category ∈ F.income)) ∧
    (∀ r : Record, passes F r = true →
      (apply_filters R F).count r = R.count r) := by
  refine ⟨List.filter_sublist R, fun r => ?_, fun r hr => ?_⟩
  · rw [apply_filters, List.mem_filter, passes_iff]
  · exact List.count_filter hr

/-- Witness for C7 at a concrete record set and filter. -/
theorem filter_subsequence_spec_inst :
    (apply_filters
      [⟨45, AttritionFlag.existing, "Graduate", "M", "Low"⟩]
      ⟨[AgeGroup.g40_49], ["Graduate"], ["M"], ["Low"]⟩).Sublist
      [⟨45, AttritionFlag.existing, "Graduate", "M", "Low"⟩] ∧
    (⟨45, AttritionFlag.existing, "Graduate", "M", "Low"⟩ : Record) ∈
      apply_filters
        [⟨45, AttritionFlag.existing, "Graduate", "M", "Low"⟩]
        ⟨[AgeGroup.g40_49], ["Graduate"], ["M"], ["Low"]⟩ := by
  refine ⟨(filter_subsequence_spec _ _).1, ?_⟩
  exact ((filter_subsequence_spec
    [⟨45, AttritionFlag.existing, "Graduate", "M", "Low"⟩]
    ⟨[AgeGroup.g40_49], ["Graduate"], ["M"], ["Low"]⟩).2.1 _).mpr
    (by refine ⟨by simp, ⟨AgeGroup.g40_49, by decide, by simp⟩, by simp, by simp, by simp⟩)

/-- C8: the filter maps an empty input to an empty output, and any
dimension with an empty selection (the all-empty filter included) yields
zero matching records. -/
theorem empty_selection_empty_output (F : FilterSet) (R : List Record) :
    apply_filters [] F = [] ∧
    ((F.age = [] ∨ F.edu = [] ∨ F.gender = [] ∨ F.income = []) →
      apply_filters R F = []) := by
  refine ⟨rfl, fun h => ?_⟩
  rw [apply_filters, List.filter_eq_nil_iff]
  intro r _
  intro hp
  obtain ⟨⟨g, -, hg⟩, he, hgen, hi⟩ := (passes_iff F r).mp hp
  rcases h with h | h | h | h
  · rw [h] at hg; exact absurd hg (List.not_mem_nil g)
  · rw [h] at he; exact absurd he (List.not_mem_nil _)
  · rw [h] at hgen; exact absurd hgen (List.not_mem_nil _)
  · rw [h] at hi; exact absurd hi (List.not_mem_nil _)

/-- Witness for C8: the all-empty filter on a nonempty record set. -/
theorem empty_selection_empty_output_inst :
    apply_filters
      [⟨45, AttritionFlag.attrited, "Graduate", "F", "Low"⟩]
      ⟨[], [], [], []⟩ = [] :=
  (empty_selection_empty_output ⟨[], [], [], []⟩
    [⟨45, AttritionFlag.attrited, "Graduate", "F", "Low"⟩]).2 (Or.inl rfl)

/-- C9: filtering is idempotent and, the pipeline being pure, the count and
rate tables computed from the refiltered set coincide with those of the
filtered set. -/
theorem pipeline_idempotent (R : List Record) (F : FilterSet) (d : Dim) :
    apply_filters (apply_filters R F) F = apply_filters R F ∧
    count_by (apply_filters (apply_filters R F) F) d =
      count_by (apply_filters R F) d ∧
    rate_by (apply_filters (apply_filters R F) F) d =
      rate_by (apply_filters R F) d := by
  have h : apply_filters (apply_filters R F) F = apply_filters R F := by
    unfold apply_filters
    rw [List.filter_filter]
    simp only [Bool.and_self]
  exact ⟨h, by rw [h], by rw [h]⟩

/-- C2 counterexample: a record with age 15 (NaN age group) under the
all-inclusive filter (every concrete bucket and every present value
selected) is dropped from `filtered_df` itself, so the gender count and
rate tables are empty — the record is NOT still counted in the non-age
aggregations. -/
theorem undefined_age_dropped_from_gender_table :
    apply_filters [⟨15, AttritionFlag.existing, "Graduate", "M", "Low"⟩]
      ⟨[AgeGroup.g20_39, AgeGroup.g40_49, AgeGroup.g50_59, AgeGroup.g60_79],
       ["Graduate"], ["M"], ["Low"]⟩ = [] ∧
    count_by (apply_filters [⟨15, AttritionFlag.existing, "Graduate", "M", "Low"⟩]
      ⟨[AgeGroup.g20_39, AgeGroup.g40_49, AgeGroup.g50_59, AgeGroup.g60_79],
       ["Graduate"], ["M"], ["Low"]⟩) Dim.gender = [] ∧
    rate_by (apply_filters [⟨15, AttritionFlag.existing, "Graduate", "M", "Low"⟩]
      ⟨[AgeGroup.g20_39, AgeGroup.g40_49, AgeGroup.g50_59, AgeGroup.g60_79],
       ["Graduate"], ["M"], ["Low"]⟩) Dim.gender = [] := by
  decide

/-- C2 amended: a record whose age group is Undefined fails the age-group
`isin` mask under every filter, so it is excluded from the filtered frame
entirely — and hence from every aggregation, age-based or not; dropping all
undefined-age records before filtering changes nothing. -/
theorem undefined_age_excluded_everywhere (R : List Record) (F : FilterSet)
    (r : Record) (h : assign_age_group r.customer_age = none) :
    r ∉ apply_filters R F ∧
    apply_filters R F =
      apply_filters (R.filter (fun x => (assign_age_group x.customer_age).isSome)) F := by
  constructor
  · intro hmem
    have hp := (List.mem_filter.mp hmem).2
    rw [passes_eq_false_of_age_none F h] at hp
    exact Bool.false_ne_true hp
  · unfold apply_filters
    rw [List.filter_filter]
    apply List.filter_congr
    intro x _
    cases hx : assign_age_group x.customer_age with
    | none => rw [passes_eq_false_of_age_none F hx]; simp [hx]
    | some g => simp [hx]

/-- Witness for the amended C2 at a concrete record. -/
theorem undefined_age_excluded_everywhere_inst :
    (⟨15, AttritionFlag.existing, "Graduate", "M", "Low"⟩ : Record) ∉
      apply_filters [⟨15, AttritionFlag.existing, "Graduate", "M", "Low"⟩]
        ⟨[AgeGroup.g20_39], ["Graduate"], ["M"], ["Low"]⟩ :=
  (undefined_age_excluded_everywhere
    [⟨15, AttritionFlag.existing, "Graduate", "M", "Low"⟩]
    ⟨[AgeGroup.g20_39], ["Graduate"], ["M"], ["Low"]⟩
    ⟨15, AttritionFlag.existing, "Graduate", "M", "Low"⟩ (by decide)).1

/-- C3 counterexample: with a single filtered record of age 25, the bucket
`40-49` has zero matching records and is still emitted in the age-group
rate table (as a NaN row), because the crosstab keeps every declared
category of the Categorical column. -/
theorem empty_bucket_row_in_rate_table :
    (⟨CatVal.age AgeGroup.g40_49, AttritionFlag.existing, none⟩ : RateRow) ∈
      rate_by (apply_filters [⟨25, AttritionFlag.existing, "Graduate", "M", "Low"⟩]
        ⟨[AgeGroup.g20_39, AgeGroup.g40_49, AgeGroup.g50_59, AgeGroup.g60_79],
         ["Graduate"], ["M"], ["Low"]⟩) Dim.ageGroup ∧
    totalCount (apply_filters [⟨25, AttritionFlag.existing, "Graduate", "M", "Low"⟩]
        ⟨[AgeGroup.g20_39, AgeGroup.g40_49, AgeGroup.g50_59, AgeGroup.g60_79],
         ["Graduate"], ["M"], ["Low"]⟩) Dim.ageGroup
      (CatVal.age AgeGroup.g40_49) = 0 := by
  decide

/-- C3 amended: zero-count category values are absent from the count table
of every dimension and from the rate tables of the three string dimensions;
only the age-group rate table can carry rows for valueless buckets. -/
theorem sparse_count_table_and_string_rate_tables (R : List Record) (d : Dim) :
    (∀ row ∈ count_by R d, 0 < row.count) ∧
    (d ≠ Dim.ageGroup → ∀ row ∈ rate_by R d, 0 < totalCount R d row.cat) := by
  constructor
  · intro row hrow
    obtain ⟨p, hp, hrow⟩ := List.mem_map.mp hrow
    subst hrow
    show 0 < cellCount R d p.1 p.2
    rw [cellCount_pos_iff]
    simpa using List.mem_dedup.mp hp
  · intro hd row hrow
    obtain ⟨o, ho, hrow⟩ := List.mem_flatMap.mp hrow
    obtain ⟨v', hv', hrow⟩ := List.mem_map.mp hrow
    subst hrow
    show 0 < totalCount R d v'
    rw [totalCount_pos_iff]
    cases d with
    | ageGroup => exact absurd rfl hd
    | education =>
        unfold rowVals at hv'
        exact List.mem_map.mp (List.mem_dedup.mp hv')
    | gender =>
        unfold rowVals at hv'
        exact List.mem_map.mp (List.mem_dedup.mp hv')
    | income =>
        unfold rowVals at hv'
        exact List.mem_map.mp (List.mem_dedup.mp hv')

/-- Witness for the amended C3 at a concrete record and the gender
dimension. -/
theorem sparse_count_table_and_string_rate_tables_inst :
    0 < cellCount [⟨25, AttritionFlag.existing, "Graduate", "M", "Low"⟩]
      Dim.gender (CatVal.str "M") AttritionFlag.existing :=
  (sparse_count_table_and_string_rate_tables
    [⟨25, AttritionFlag.existing, "Graduate", "M", "Low"⟩] Dim.gender).1
    ⟨CatVal.str "M", AttritionFlag.existing,
      cellCount [⟨25, AttritionFlag.existing, "Graduate", "M", "Low"⟩]
        Dim.gender (CatVal.str "M") AttritionFlag.existing⟩ (by decide)

/-- C4 counterexample: on an externally constructed record set the bucket
`20-39` has a zero total, and `churn_rate_df` emits its rows (with NaN
percentage) rather than omitting them. -/
theorem zero_total_row_not_omitted :
    (⟨CatVal.age AgeGroup.g20_39, AttritionFlag.existing, none⟩ : RateRow) ∈
      rate_by [⟨62, AttritionFlag.existing, "Graduate", "M", "Low"⟩] Dim.ageGroup ∧
    totalCount [⟨62, AttritionFlag.existing, "Graduate", "M", "Low"⟩] Dim.ageGroup
      (CatVal.age AgeGroup.g20_39) = 0 := by
  decide

/-- C4 amended: the rate computation is total (never crashes), and a
category value with a zero denominator yields one emitted row per outcome
column whose percentage is NaN — an undefined value, not an omitted row. -/
theorem zero_total_rows_are_nan (R : List Record) (d : Dim) (v : CatVal)
    (o : AttritionFlag) (hv : v ∈ rowVals R d) (ho : o ∈ colVals R d)
    (h0 : totalCount R d v = 0) :
    (⟨v, o, none⟩ : RateRow) ∈ rate_by R d ∧
    ∀ row ∈ rate_by R d, row.cat = v → row.percentage = none := by
  constructor
  · unfold rate_by
    rw [List.mem_flatMap]
    refine ⟨o, ho, List.mem_map.mpr ⟨v, hv, ?_⟩⟩
    simp [h0]
  · intro row hrow hcat
    obtain ⟨o', ho', hrow⟩ := List.mem_flatMap.mp hrow
    obtain ⟨v', hv', hrow⟩ := List.mem_map.mp hrow
    subst hrow
    have hveq : v' = v := hcat
    subst hveq
    show (if totalCount R d v' = 0 then none
          else some (round1 (100 * (cellCount R d v' o' : ℚ) /
                              (totalCount R d v' : ℚ)))) = none
    rw [if_pos h0]

/-- Witness for the amended C4 at a concrete record set. -/
theorem zero_total_rows_are_nan_inst :
    (⟨CatVal.age AgeGroup.g50_59, AttritionFlag.attrited, none⟩ : RateRow) ∈
      rate_by [⟨30, AttritionFlag.attrited, "Graduate", "F", "Low"⟩] Dim.ageGroup :=
  (zero_total_rows_are_nan
    [⟨30, AttritionFlag.attrited, "Graduate", "F", "Low"⟩] Dim.ageGroup
    (CatVal.age AgeGroup.g50_59) AttritionFlag.attrited
    (by decide) (by decide) (by decide)).1

/-- C5 counterexample: with one existing "M" record and one attrited "F"
record, the gender rate table reports a row for ("M", Attrited) at 0% even
though no "M" record is attrited — the melt emits the full product of
present values and globally observed outcomes, not only the outcomes
observed for each value. -/
theorem unobserved_outcome_zero_row :
    rowCount (rate_by [⟨30, AttritionFlag.existing, "Graduate", "M", "Low"⟩,
               ⟨30, AttritionFlag.attrited, "Graduate", "F", "Low"⟩] Dim.gender)
      (CatVal.str "M") AttritionFlag.attrited = 1 ∧
    cellCount [⟨30, AttritionFlag.existing, "Graduate", "M", "Low"⟩,
               ⟨30, AttritionFlag.attrited, "Graduate", "F", "Low"⟩] Dim.gender
      (CatVal.str "M") AttritionFlag.attrited = 0 := by
  decide

/-- C5 amended: the rate table holds exactly one row per (crosstab row
value, outcome observed anywhere in the record set), and every row's
percentage is `100 * cell / total` rounded to one decimal (NaN when the
total is zero); an outcome unobserved for a value but observed elsewhere
yields a 0.0 row. -/
theorem rate_rows_product_shape (R : List Record) (d : Dim) (v : CatVal)
    (o : AttritionFlag) :
    rowCount (rate_by R d) v o =
      (if v ∈ rowVals R d ∧ o ∈ colVals R d then 1 else 0) ∧
    ∀ row ∈ rate_by R d,
      row.percentage =
        if totalCount R d row.cat = 0 then none
        else some (round1 (100 * (cellCount R d row.cat row.flag : ℚ) /
                            (totalCount R d row.cat : ℚ))) := by
  constructor
  · rw [rowCount_rate_by]
    by_cases hv : v ∈ rowVals R d
    · by_cases ho : o ∈ colVals R d
      · rw [List.count_eq_one_of_mem (colVals_nodup R d) ho,
            List.count_eq_one_of_mem (rowVals_nodup R d) hv, if_pos ⟨hv, ho⟩]
      · rw [List.count_eq_zero_of_not_mem ho, if_neg (by tauto)]
        simp
    · rw [List.count_eq_zero_of_not_mem hv, if_neg (by tauto)]
      simp
  · intro row hrow
    obtain ⟨o', ho', hrow⟩ := List.mem_flatMap.mp hrow
    obtain ⟨v', hv', hrow⟩ := List.mem_map.mp hrow
    subst hrow
    rfl

/-- Witness for the amended C5 at a concrete record set. -/
theorem rate_rows_product_shape_inst :
    rowCount (rate_by [⟨30, AttritionFlag.existing, "Graduate", "M", "Low"⟩]
      Dim.gender) (CatVal.str "M") AttritionFlag.existing = 1 := by
  rw [(rate_rows_product_shape
    [⟨30, AttritionFlag.existing, "Graduate", "M", "Low"⟩]
    Dim.gender (CatVal.str "M") AttritionFlag.existing).1]
  decide

/-- C6 counterexample: the bucket `40-49` is present in the age-group rate
table built from a single age-25 record, yet the sum of its (numeric)
percentages is 0, far outside [99.9, 100.1] — its rows are NaN. -/
theorem empty_bucket_breaks_percentage_sum :
    (⟨CatVal.age AgeGroup.g40_49, AttritionFlag.existing, none⟩ : RateRow) ∈
      rate_by [⟨25, AttritionFlag.existing, "Graduate", "F", "High"⟩] Dim.ageGroup ∧
    sumPct (rate_by [⟨25, AttritionFlag.existing, "Graduate", "F", "High"⟩]
      Dim.ageGroup) (CatVal.age AgeGroup.g40_49) = 0 ∧
    ¬ ((999 : ℚ) / 10 ≤ 0) := by
  refine ⟨by decide, by decide, by norm_num⟩

/-- C6 amended: for every category value with at least one record in the
set, the rounded percentages across outcomes sum to exactly 100 — in
particular within [99.9, 100.1]. -/
theorem percentage_sum_exact (R : List Record) (d : Dim) (v : CatVal)
    (h : 0 < totalCount R d v) :
    sumPct (rate_by R d) v = 100 := by
  have ht : totalCount R d v ≠ 0 := Nat.pos_iff_ne_zero.mp h
  have hv := mem_rowVals_of_total_pos R d v h
  rw [sumPct_rate_by R d v hv ht]
  obtain ⟨p, hp, hpv⟩ := (totalCount_pos_iff R d v).mp h
  have hmem : p.2 ∈ colVals R d := (mem_colVals R d p.2).mpr ⟨p, hp, rfl⟩
  have hdiv : (100 : ℚ) * (totalCount R d v : ℚ) / (totalCount R d v : ℚ) = 100 := by
    rw [mul_div_assoc, div_self (by exact_mod_cast ht), mul_one]
  rcases colVals_cases R d with hc | hc | hc | hc
  · rw [hc] at hmem
    exact absurd hmem (List.not_mem_nil _)
  · have hex : AttritionFlag.existing ∉ colVals R d := by
      rw [hc]; decide
    have h0 : cellCount R d v AttritionFlag.existing = 0 :=
      cellCount_eq_zero_of_not_mem_colVals R d v _ hex
    have hcell : cellCount R d v AttritionFlag.attrited = totalCount R d v := by
      rw [total_eq_cells R d v, h0]
      omega
    rw [hc]
    simp only [List.map_cons, List.map_nil, List.sum_cons, List.sum_nil, add_zero]
    rw [hcell, hdiv, round1_hundred]
  · have hat : AttritionFlag.attrited ∉ colVals R d := by
      rw [hc]; decide
    have h0 : cellCount R d v AttritionFlag.attrited = 0 :=
      cellCount_eq_zero_of_not_mem_colVals R d v _ hat
    have hcell : cellCount R d v AttritionFlag.existing = totalCount R d v := by
      rw [total_eq_cells R d v, h0, Nat.zero_add]
    rw [hc]
    simp only [List.map_cons, List.map_nil, List.sum_cons, List.sum_nil, add_zero]
    rw [hcell, hdiv, round1_hundred]
  · rw [hc]
    simp only [List.map_cons, List.map_nil, List.sum_cons, List.sum_nil, add_zero]
    have hcast : (totalCount R d v : ℚ) =
        (cellCount R d v AttritionFlag.attrited : ℚ) +
        (cellCount R d v AttritionFlag.existing : ℚ) := by
      rw [total_eq_cells R d v]
      push_cast
      ring
    rw [hcast]
    exact round1_pair _ _ (total_eq_cells R d v ▸ ht)

/-- Witness for the amended C6 at a concrete record set. -/
theorem percentage_sum_exact_inst :
    sumPct (rate_by [⟨25, AttritionFlag.existing, "Graduate", "M", "Low"⟩,
                     ⟨25, AttritionFlag.attrited, "Graduate", "M", "Low"⟩]
      Dim.ageGroup) (CatVal.age AgeGroup.g20_39) = 100 :=
  percentage_sum_exact
    [⟨25, AttritionFlag.existing, "Graduate", "M", "Low"⟩,
     ⟨25, AttritionFlag.attrited, "Graduate", "M", "Low"⟩]
    Dim.ageGroup (CatVal.age AgeGroup.g20_39) (by decide)

end ChurnApp
